import Mathlib

/-!
Verification of the `merge` Prow plugin (`prow/plugins/merge/merge.go`).

The file embeds, in Lean, the behavioral core of the plugin:

* the command matcher built from the Go regexps
  `(?mi)^/merge\s*$` and `(?mi)^/merge cancel\s*$`;
* the event filter and label reconciliation of `handleGenericComment` /
  `handle`, with the external GitHub client modelled as oracle results
  plus an explicit trace of the calls issued;
* the per-repo configuration lookup `optionsForRepo`.

Stateful Go code is embedded by explicit result/trace pairs: a handler
returns `(err?, calls)` where `calls` lists, in order, the client
operations it issued.
-/

/-! ## Command matcher

Go regexp semantics for the two patterns, specialised:

* `(?m)` makes `^` match at the start of the text or right after a `\n`,
  and `$` match at the end of the text or right before a `\n`; for a
  pattern of the shape `^lit\s*$` this is exactly: some `\n`-separated
  line consists of `lit` followed only by whitespace.  (`\s*` may greedily
  span a `\n` onto a whitespace-only continuation line, but then `$`
  already matched at that first `\n`, so the line view is equivalent.)
* `(?i)` folds case; the literals here contain only ASCII letters, whose
  Go folding is plain ASCII case folding.
* Go `\s` is exactly `[\t\n\f\r ]`.
-/

/-- The character class of Go regexp `\s`: tab, newline, form feed,
carriage return, space. -/
def isGoSpace (c : Char) : Bool :=
  c == '\t' || c == '\n' || c == '\x0c' || c == '\r' || c == ' '

/-- Split a character list at `'\n'`, keeping empty segments (the line
view of a text that multiline `^`/`$` anchors induce). -/
def splitLines : List Char → List (List Char)
  | [] => [[]]
  | c :: cs =>
    if c = '\n' then [] :: splitLines cs
    else
      match splitLines cs with
      | [] => [[c]]
      | l :: ls => (c :: l) :: ls

/-- Drop the trailing run of Go-whitespace characters. -/
def rstripSpace (l : List Char) : List Char :=
  (l.reverse.dropWhile isGoSpace).reverse

/-- A single line matches the anchored pattern `^tok\s*$` (case-folded):
after stripping trailing whitespace, the line lowercases to `tok`. -/
def lineMatchesToken (tok : List Char) (line : List Char) : Bool :=
  (rstripSpace line).map Char.toLower == tok

/-- `mergeRe.MatchString body` for `mergeRe = (?mi)^/merge\s*$`. -/
def mergeReMatch (body : String) : Bool :=
  (splitLines body.toList).any (lineMatchesToken "/merge".toList)

/-- `mergeCancelRe.MatchString body` for
`mergeCancelRe = (?mi)^/merge cancel\s*$`. -/
def mergeCancelReMatch (body : String) : Bool :=
  (splitLines body.toList).any (lineMatchesToken "/merge cancel".toList)

/-- The classification a comment body receives in `handleGenericComment`:
the merge pattern is tested first, then the cancel pattern, else no-op. -/
inductive CommandClass where
  | mergeRequested
  | mergeCancelled
  | noCommand
deriving DecidableEq, Repr

/-- The inline two-regexp classification of `handleGenericComment`
(the `wantMerge` computation), as a tagged value. -/
def classifyBody (body : String) : CommandClass :=
  if mergeReMatch body then CommandClass.mergeRequested
  else if mergeCancelReMatch body then CommandClass.mergeCancelled
  else CommandClass.noCommand

example : classifyBody "/merge" = CommandClass.mergeRequested := by decide
example : classifyBody "/MERGE  " = CommandClass.mergeRequested := by decide
example : classifyBody "foo\n/merge cancel\nbar" = CommandClass.mergeCancelled := by decide
example : classifyBody "foo /merge bar" = CommandClass.noCommand := by decide
example : classifyBody " /merge" = CommandClass.noCommand := by decide

/-! ## Data model -/

/-- `github.User`, restricted to the consumed field. -/
structure User where
  login : String
deriving DecidableEq, Repr

/-- `github.Repo`, restricted to the consumed fields. -/
structure Repo where
  owner : User
  name : String
deriving DecidableEq, Repr

/-- `github.Label`, restricted to its name. -/
structure Label where
  name : String
deriving DecidableEq, Repr

/-- `github.GenericCommentEventAction`. -/
inductive GenericCommentEventAction where
  | created
  | edited
  | deleted
deriving DecidableEq, Repr

/-- `github.GenericCommentEvent`, restricted to the consumed fields. -/
structure GenericCommentEvent where
  user : User
  issueAuthor : User
  body : String
  htmlURL : String
  repo : Repo
  number : Int
  isPR : Bool
  issueState : String
  action : GenericCommentEventAction
deriving DecidableEq, Repr

/-- `reviewCtx` from merge.go. -/
structure reviewCtx where
  author : String
  issueAuthor : String
  body : String
  htmlURL : String
  repo : Repo
  number : Int
deriving DecidableEq, Repr

/-- The label managed by the plugin (`mergeLabel = "ok-to-merge"`). -/
def mergeLabel : String := "ok-to-merge"

/-- A call issued against the external GitHub client (only the three
operations the flow exercises appear in traces). -/
inductive GhCall where
  | getIssueLabels (org repo : String) (number : Int)
  | addLabel (org repo : String) (number : Int) (label : String)
  | removeLabel (org repo : String) (number : Int) (label : String)
deriving DecidableEq, Repr

/-- The external GitHub client, modelled as the oracle results of the three
operations the handler can issue. `Except` carries the `(labels, err)`
pair of `GetIssueLabels` (Go convention: on error the labels are `nil`);
`Option String` is the error result of a mutation (`none` = success). -/
structure GhClient where
  getIssueLabelsResult : Except String (List Label)
  addLabelResult : Option String
  removeLabelResult : Option String
deriving Repr

/-- Modelled from the spec: `github.HasLabel` lives outside the sources at
hand; the spec reads "Compute `has` = label set contains \x22ok-to-merge\x22",
so it is membership of the label name in the fetched set. -/
def HasLabel (label : String) (labels : List Label) : Bool :=
  labels.any (fun l => l.name == label)

/-- The `labels` value the handler computes: the fetched list on success,
the `nil` (empty) list when the fetch erred (the error is only logged). -/
def fetchedLabels (gc : GhClient) : List Label :=
  match gc.getIssueLabelsResult with
  | Except.ok ls => ls
  | Except.error _ => []

/-! ## Handlers

`handle` and `handleGenericComment`, returning the Go error result paired
with the ordered trace of client calls.  The unused `config`,
`ownersClient` and `log` parameters of the Go functions (dead permission
scaffolding and logging) are omitted: they contribute no behavior. -/

/-- `handle` from merge.go: fetch labels (fallback to absent on error),
then reconcile the `ok-to-merge` label against `wantMerge`. -/
def handle (wantMerge : Bool) (rc : reviewCtx) (gc : GhClient) :
    Option String × List GhCall :=
  let number := rc.number
  let org := rc.repo.owner.login
  let repoName := rc.repo.name
  let labels := fetchedLabels gc
  let has := HasLabel mergeLabel labels
  if has && !wantMerge then
    (gc.removeLabelResult,
      [GhCall.getIssueLabels org repoName number,
       GhCall.removeLabel org repoName number mergeLabel])
  else if !has && wantMerge then
    (gc.addLabelResult,
      [GhCall.getIssueLabels org repoName number,
       GhCall.addLabel org repoName number mergeLabel])
  else
    (none, [GhCall.getIssueLabels org repoName number])

/-- `handleGenericComment` from merge.go: gate on open-PR comment
creation, classify the body (merge pattern first), dispatch to `handle`;
the Go `wantMerge` if/else-if chain is the `classifyBody` match. -/
def handleGenericComment (gc : GhClient) (e : GenericCommentEvent) :
    Option String × List GhCall :=
  let rc : reviewCtx :=
    { author := e.user.login
      issueAuthor := e.issueAuthor.login
      body := e.body
      htmlURL := e.htmlURL
      repo := e.repo
      number := e.number }
  if e.isPR = false ∨ e.issueState ≠ "open" ∨
      e.action ≠ GenericCommentEventAction.created then
    (none, [])
  else
    match classifyBody rc.body with
    | CommandClass.mergeRequested => handle true rc gc
    | CommandClass.mergeCancelled => handle false rc gc
    | CommandClass.noCommand => (none, [])

/-- Call-shape predicates over traces. -/
def isAddLabel : GhCall → Bool
  | GhCall.addLabel _ _ _ _ => true
  | _ => false

def isRemoveLabel : GhCall → Bool
  | GhCall.removeLabel _ _ _ _ => true
  | _ => false

/-- A label mutation (either an add or a remove). -/
def isMutation (c : GhCall) : Bool :=
  isAddLabel c || isRemoveLabel c

/-! ## Per-repo configuration lookup -/

/-- `plugins.Merge`: its `Repos` list is the only field merge.go consults
(the struct is external to merge.go; other fields are never read here). -/
structure Merge where
  repos : List String
deriving DecidableEq, Repr

/-- `plugins.Configuration`, restricted to the `Merge` entry list. -/
structure Configuration where
  merge : List Merge
deriving DecidableEq, Repr

/-- `strInSlice` from merge.go. -/
def strInSlice (str : String) (slice : List String) : Bool :=
  slice.any (fun elem => elem == str)

/-- The loop condition of `optionsForRepo` on one entry, with the
`fmt.Sprintf("%s/%s", org, repo)` full name inlined. -/
def mergeEntryMatches (org repo : String) (m : Merge) : Bool :=
  strInSlice org m.repos || strInSlice (org ++ "/" ++ repo) m.repos

/-- `optionsForRepo` from merge.go: first matching entry, else the zero
value `plugins.Merge{}`. -/
def optionsForRepo (config : Configuration) (org repo : String) : Merge :=
  match config.merge.find? (mergeEntryMatches org repo) with
  | some m => m
  | none => { repos := [] }

example :
    optionsForRepo { merge := [{ repos := ["orgA"] }, { repos := ["orgB/repoX"] }] }
      "orgA" "anyrepo" = { repos := ["orgA"] } := by decide
example :
    optionsForRepo { merge := [{ repos := ["orgA"] }, { repos := ["orgB/repoX"] }] }
      "orgC" "repoZ" = { repos := [] } := by decide

/-! ## Example inputs used by witnesses -/

/-- A client whose fetch succeeds with an empty label set and whose
mutations succeed. -/
def exClientEmpty : GhClient :=
  { getIssueLabelsResult := Except.ok []
    addLabelResult := none
    removeLabelResult := none }

/-- A client whose fetch succeeds with the merge label present. -/
def exClientLabelled : GhClient :=
  { getIssueLabelsResult := Except.ok [{ name := "ok-to-merge" }]
    addLabelResult := none
    removeLabelResult := none }

/-- A client whose fetch fails. -/
def exClientErr : GhClient :=
  { getIssueLabelsResult := Except.error "boom"
    addLabelResult := none
    removeLabelResult := none }

/-- An eligible event (open PR, comment created) with the given body. -/
def exEvent (body : String) : GenericCommentEvent :=
  { user := { login := "alice" }
    issueAuthor := { login := "bob" }
    body := body
    htmlURL := "https://example.invalid/pr/7"
    repo := { owner := { login := "org" }, name := "repo" }
    number := 7
    isPR := true
    issueState := "open"
    action := GenericCommentEventAction.created }

/-- The review context `handleGenericComment` builds from `exEvent`. -/
def exRc (body : String) : reviewCtx :=
  { author := "alice"
    issueAuthor := "bob"
    body := body
    htmlURL := "https://example.invalid/pr/7"
    repo := { owner := { login := "org" }, name := "repo" }
    number := 7 }

/-! ## Claims -/

/-- C1: whenever the fetched label set's containment of "ok-to-merge"
(`has`) already equals the requested intent (`wantMerge`), `handle`
issues zero AddLabel and zero RemoveLabel calls and returns success. -/
theorem handle_idempotent (wantMerge : Bool) (rc : reviewCtx) (gc : GhClient)
    (h : HasLabel mergeLabel (fetchedLabels gc) = wantMerge) :
    (handle wantMerge rc gc).1 = none ∧
    (handle wantMerge rc gc).2.filter isMutation = [] := by
  cases wantMerge <;>
    simp [handle, h, isMutation, isAddLabel, isRemoveLabel]

/-- C1 witness: a repeated "/merge cancel" against an unlabelled PR
mutates nothing. -/
theorem handle_idempotent_witness :
    HasLabel mergeLabel (fetchedLabels exClientEmpty) = false ∧
    (handle false (exRc "/merge cancel") exClientEmpty).1 = none ∧
    (handle false (exRc "/merge cancel") exClientEmpty).2.filter isMutation = [] :=
  ⟨rfl,
   (handle_idempotent false (exRc "/merge cancel") exClientEmpty rfl).1,
   (handle_idempotent false (exRc "/merge cancel") exClientEmpty rfl).2⟩

/-- C2: an event that is not a PR comment, or whose issue is not open, or
whose action is not "created", yields success with zero client calls. -/
theorem handleGenericComment_ineligible (gc : GhClient)
    (e : GenericCommentEvent)
    (h : e.isPR = false ∨ e.issueState ≠ "open" ∨
      e.action ≠ GenericCommentEventAction.created) :
    handleGenericComment gc e = (none, []) := by
  simp only [handleGenericComment]
  rw [if_pos h]

/-- C2 witness: a "/merge" comment on a closed PR is ignored. -/
theorem handleGenericComment_ineligible_witness :
    handleGenericComment exClientEmpty
      { exEvent "/merge" with issueState := "closed" } = (none, []) :=
  handleGenericComment_ineligible exClientEmpty
    { exEvent "/merge" with issueState := "closed" }
    (Or.inr (Or.inl (by decide)))

/-- C5: a failed label fetch does not abort the handler; it behaves
exactly as if the client had returned an empty label set. -/
theorem handleGenericComment_fetchError (gc : GhClient)
    (e : GenericCommentEvent) (msg : String)
    (h : gc.getIssueLabelsResult = Except.error msg) :
    handleGenericComment gc e =
      handleGenericComment
        { gc with getIssueLabelsResult := Except.ok [] } e := by
  have hfl : fetchedLabels gc =
      fetchedLabels { gc with getIssueLabelsResult := Except.ok [] } := by
    simp [fetchedLabels, h]
  simp only [handleGenericComment, handle, hfl]

/-- C5 witness: with a failing fetch, "/merge" is handled exactly as with
an empty label set. -/
theorem handleGenericComment_fetchError_witness :
    handleGenericComment exClientErr (exEvent "/merge") =
      handleGenericComment
        { exClientErr with getIssueLabelsResult := Except.ok [] }
        (exEvent "/merge") :=
  handleGenericComment_fetchError exClientErr (exEvent "/merge") "boom" rfl

/-- C10: no invocation issues more than one label mutation: AddLabel and
RemoveLabel are never both called, and neither is called twice, in
`handle` as well as through `handleGenericComment`. -/
theorem handle_atMostOneMutation (wantMerge : Bool) (rc : reviewCtx)
    (gc : GhClient) (e : GenericCommentEvent) :
    ((handle wantMerge rc gc).2.filter isAddLabel).length +
      ((handle wantMerge rc gc).2.filter isRemoveLabel).length ≤ 1 ∧
    ((handleGenericComment gc e).2.filter isAddLabel).length +
      ((handleGenericComment gc e).2.filter isRemoveLabel).length ≤ 1 := by
  have hh : ∀ (w : Bool) (rc' : reviewCtx),
      ((handle w rc' gc).2.filter isAddLabel).length +
        ((handle w rc' gc).2.filter isRemoveLabel).length ≤ 1 := by
    intro w rc'
    simp only [handle]
    split
    · simp [isAddLabel, isRemoveLabel]
    · split <;> simp [isAddLabel, isRemoveLabel]
  refine ⟨hh wantMerge rc, ?_⟩
  simp only [handleGenericComment]
  split
  · simp
  · split
    · exact hh true _
    · exact hh false _
    · simp

/-- C3: an eligible event without the merge label whose body matches the
standalone "/merge" pattern issues exactly one AddLabel call for
"ok-to-merge", zero RemoveLabel calls, and returns the AddLabel error. -/
theorem handleGenericComment_addsLabel (gc : GhClient)
    (e : GenericCommentEvent)
    (hpr : e.isPR = true) (hst : e.issueState = "open")
    (hac : e.action = GenericCommentEventAction.created)
    (hhas : HasLabel mergeLabel (fetchedLabels gc) = false)
    (hm : mergeReMatch e.body = true) :
    (handleGenericComment gc e).2.filter isAddLabel =
      [GhCall.addLabel e.repo.owner.login e.repo.name e.number mergeLabel] ∧
    (handleGenericComment gc e).2.filter isRemoveLabel = [] ∧
    (handleGenericComment gc e).1 = gc.addLabelResult := by
  simp only [handleGenericComment, classifyBody, hpr, hst, hac, hm,
    if_true, ne_eq, not_true_eq_false, or_false, or_self, if_false]
  simp [handle, hhas, isAddLabel, isRemoveLabel]

/-- C3 witness: "/merge" on an unlabelled open PR adds the label once. -/
theorem handleGenericComment_addsLabel_witness :
    (handleGenericComment exClientEmpty (exEvent "/merge")).2.filter isAddLabel =
      [GhCall.addLabel "org" "repo" 7 mergeLabel] ∧
    (handleGenericComment exClientEmpty (exEvent "/merge")).2.filter isRemoveLabel = [] ∧
    (handleGenericComment exClientEmpty (exEvent "/merge")).1 =
      exClientEmpty.addLabelResult :=
  handleGenericComment_addsLabel exClientEmpty (exEvent "/merge")
    rfl rfl rfl rfl (by decide)

/-- C4: an eligible event carrying the merge label whose body matches the
standalone "/merge cancel" pattern (and not the "/merge" pattern) issues
exactly one RemoveLabel call, zero AddLabel calls, and returns the
RemoveLabel result directly. -/
theorem handleGenericComment_removesLabel (gc : GhClient)
    (e : GenericCommentEvent)
    (hpr : e.isPR = true) (hst : e.issueState = "open")
    (hac : e.action = GenericCommentEventAction.created)
    (hhas : HasLabel mergeLabel (fetchedLabels gc) = true)
    (hm : mergeReMatch e.body = false)
    (hc : mergeCancelReMatch e.body = true) :
    (handleGenericComment gc e).2.filter isRemoveLabel =
      [GhCall.removeLabel e.repo.owner.login e.repo.name e.number mergeLabel] ∧
    (handleGenericComment gc e).2.filter isAddLabel = [] ∧
    (handleGenericComment gc e).1 = gc.removeLabelResult := by
  simp only [handleGenericComment, classifyBody, hpr, hst, hac, hm, hc,
    if_true, if_false, ne_eq, not_true_eq_false, or_false, or_self,
    Bool.false_eq_true]
  simp [handle, hhas, isAddLabel, isRemoveLabel]

/-- C4 witness: "/merge cancel" on a labelled open PR removes the label
once. -/
theorem handleGenericComment_removesLabel_witness :
    (handleGenericComment exClientLabelled (exEvent "/merge cancel")).2.filter
        isRemoveLabel =
      [GhCall.removeLabel "org" "repo" 7 mergeLabel] ∧
    (handleGenericComment exClientLabelled (exEvent "/merge cancel")).2.filter
        isAddLabel = [] ∧
    (handleGenericComment exClientLabelled (exEvent "/merge cancel")).1 =
      exClientLabelled.removeLabelResult :=
  handleGenericComment_removesLabel exClientLabelled (exEvent "/merge cancel")
    rfl rfl rfl rfl (by decide) (by decide)

/-- C6: a body matching both the standalone "/merge" pattern and the
standalone "/merge cancel" pattern classifies as MergeRequested — the
merge pattern is tested first, whatever the order of the lines. -/
theorem classifyBody_bothPatterns (body : String)
    (hm : mergeReMatch body = true)
    (_hc : mergeCancelReMatch body = true) :
    classifyBody body = CommandClass.mergeRequested := by
  simp [classifyBody, hm]

/-- C6 witness: both line orders resolve to MergeRequested. -/
theorem classifyBody_bothPatterns_witness :
    classifyBody "/merge\n/merge cancel" = CommandClass.mergeRequested ∧
    classifyBody "/merge cancel\n/merge" = CommandClass.mergeRequested :=
  ⟨classifyBody_bothPatterns "/merge\n/merge cancel" (by decide) (by decide),
   classifyBody_bothPatterns "/merge cancel\n/merge" (by decide) (by decide)⟩

/-- C8: an eligible event whose body matches neither pattern classifies
as NoCommand, returns success, and issues zero client calls. -/
theorem handleGenericComment_noCommand (gc : GhClient)
    (e : GenericCommentEvent)
    (hpr : e.isPR = true) (hst : e.issueState = "open")
    (hac : e.action = GenericCommentEventAction.created)
    (hm : mergeReMatch e.body = false)
    (hc : mergeCancelReMatch e.body = false) :
    classifyBody e.body = CommandClass.noCommand ∧
    handleGenericComment gc e = (none, []) := by
  constructor
  · simp [classifyBody, hm, hc]
  · simp only [handleGenericComment, classifyBody, hpr, hst, hac, hm, hc,
      if_true, if_false, ne_eq, not_true_eq_false, or_false, or_self,
      Bool.false_eq_true]
    simp

/-- C8 witness: the body "foo /merge bar" (command not alone on its line)
is a no-op on an eligible event. -/
theorem handleGenericComment_noCommand_witness :
    classifyBody "foo /merge bar" = CommandClass.noCommand ∧
    handleGenericComment exClientEmpty (exEvent "foo /merge bar") = (none, []) :=
  handleGenericComment_noCommand exClientEmpty (exEvent "foo /merge bar")
    rfl rfl rfl (by decide) (by decide)

/-! ## Helper lemmas for the matcher -/

/-- A Go-whitespace character never lowercases to the letter e (the last
character of the "/merge" literal). -/
theorem isGoSpace_toLower_ne_e (c : Char) (hs : isGoSpace c = true) :
    Char.toLower c ≠ 'e' := by
  simp [isGoSpace] at hs
  rcases hs with (((h|h)|h)|h)|h <;> subst h <;> decide

/-- Dropping while `p` over an append whose left part satisfies `p`
throughout continues into the right part. -/
theorem dropWhile_append_of_all {α : Type} (p : α → Bool) (l₁ l₂ : List α)
    (h : l₁.all p = true) :
    (l₁ ++ l₂).dropWhile p = l₂.dropWhile p := by
  induction l₁ with
  | nil => rfl
  | cons a t ih =>
    simp only [List.all_cons, Bool.and_eq_true] at h
    simp [List.dropWhile_cons, h.1, ih h.2]

/-- A line that is a case variant of "/merge" followed only by trailing
whitespace matches the merge pattern. -/
theorem lineMatchesToken_merge_of_trailing (core tws : List Char)
    (hcore : core.map Char.toLower = "/merge".toList)
    (htws : tws.all isGoSpace = true) :
    lineMatchesToken "/merge".toList (core ++ tws) = true := by
  have hrevall : tws.reverse.all isGoSpace = true := by simpa using htws
  have hmaprev : core.reverse.map Char.toLower = "/merge".toList.reverse := by
    rw [List.map_reverse, hcore]
  cases hcrev : core.reverse with
  | nil =>
    rw [hcrev] at hmaprev
    exact absurd hmaprev (by decide)
  | cons c0 rest =>
    rw [hcrev, List.map_cons,
      show "/merge".toList.reverse = 'e' :: ['g', 'r', 'e', 'm', '/'] from rfl,
      List.cons.injEq] at hmaprev
    have hc0 : isGoSpace c0 = false := by
      cases hx : isGoSpace c0
      · rfl
      · exact absurd hmaprev.1 (isGoSpace_toLower_ne_e c0 hx)
    have hstrip : rstripSpace (core ++ tws) = core := by
      unfold rstripSpace
      rw [List.reverse_append, dropWhile_append_of_all isGoSpace _ _ hrevall,
        hcrev, List.dropWhile_cons, if_neg (by simp [hc0]), ← hcrev,
        List.reverse_reverse]
    simp [lineMatchesToken, hstrip, hcore]

/-- The claim's own wording of a standalone command line: only the token,
case-insensitive, with optional surrounding whitespace — leading or
trailing — and nothing else on the line.  Stated from the claim's words
to compare against the code's `lineMatchesToken`. -/
def standaloneTokenLine (tok : List Char) (line : List Char) : Bool :=
  ((line.dropWhile isGoSpace).reverse.dropWhile isGoSpace).reverse.map
    Char.toLower == tok

/-- C7 counterexample: the one-line body " /merge" is a standalone
"/merge" line in the claim's sense (leading whitespace), yet does not
classify as MergeRequested: the pattern `^/merge\s*$` admits trailing
whitespace only. -/
theorem classifyBody_leadingSpace_cex :
    standaloneTokenLine "/merge".toList " /merge".toList = true ∧
    " /merge".toList ∈ splitLines " /merge".toList ∧
    classifyBody " /merge" ≠ CommandClass.mergeRequested := by decide

/-- C7 amended: a line consisting of the token "/merge" (case-insensitive)
starting at the beginning of the line and followed only by optional
trailing whitespace classifies as MergeRequested; leading whitespace is
not tolerated. -/
theorem classifyBody_standalone_merge (body : String) (core tws : List Char)
    (hmem : core ++ tws ∈ splitLines body.toList)
    (hcore : core.map Char.toLower = "/merge".toList)
    (htws : tws.all isGoSpace = true) :
    classifyBody body = CommandClass.mergeRequested := by
  have hm : mergeReMatch body = true := by
    unfold mergeReMatch
    exact List.any_eq_true.mpr
      ⟨core ++ tws, hmem, lineMatchesToken_merge_of_trailing core tws hcore htws⟩
  simp [classifyBody, hm]

/-- C7 witness: the standalone lines "/MERGE" and "/merge " (trailing
space) classify as MergeRequested. -/
theorem classifyBody_standalone_merge_witness :
    classifyBody "/MERGE" = CommandClass.mergeRequested ∧
    classifyBody "/merge " = CommandClass.mergeRequested :=
  ⟨classifyBody_standalone_merge "/MERGE" "/MERGE".toList []
      (by decide) (by decide) (by decide),
   classifyBody_standalone_merge "/merge " "/merge".toList [' ']
      (by decide) (by decide) (by decide)⟩

/-- C9: `optionsForRepo` returns the first configuration entry whose repo
list contains the bare org name or the "org/repo" full name, and the zero
options value when no entry matches. -/
theorem optionsForRepo_firstMatch (config : Configuration)
    (org repo : String) :
    ((∀ m ∈ config.merge, mergeEntryMatches org repo m = false) →
      optionsForRepo config org repo = { repos := [] }) ∧
    (∀ pre m post, config.merge = pre ++ m :: post →
      (∀ x ∈ pre, mergeEntryMatches org repo x = false) →
      mergeEntryMatches org repo m = true →
      optionsForRepo config org repo = m) := by
  constructor
  · intro hall
    have hnone : config.merge.find? (mergeEntryMatches org repo) = none :=
      List.find?_eq_none.mpr (fun x hx => by simp [hall x hx])
    simp [optionsForRepo, hnone]
  · intro pre m post hsplit hpre hm
    have hprenone : pre.find? (mergeEntryMatches org repo) = none :=
      List.find?_eq_none.mpr (fun x hx => by simp [hpre x hx])
    have hfound : config.merge.find? (mergeEntryMatches org repo) = some m := by
      rw [hsplit, List.find?_append, hprenone, List.find?_cons_of_pos _ hm]
      rfl
    simp [optionsForRepo, hfound]

/-- The spec's example configuration. -/
def exCfg : Configuration :=
  { merge := [{ repos := ["orgA"] }, { repos := ["orgB/repoX"] }] }

/-- C9 witness: the spec's example — "orgA/anyrepo" resolves to the first
entry, "orgC/repoZ" to the default empty entry. -/
theorem optionsForRepo_firstMatch_witness :
    optionsForRepo exCfg "orgA" "anyrepo" = { repos := ["orgA"] } ∧
    optionsForRepo exCfg "orgC" "repoZ" = { repos := [] } :=
  ⟨(optionsForRepo_firstMatch exCfg "orgA" "anyrepo").2 []
      { repos := ["orgA"] } [{ repos := ["orgB/repoX"] }] rfl
      (by simp) (by decide),
   (optionsForRepo_firstMatch exCfg "orgC" "repoZ").1 (by decide)⟩
